import Mathlib

/-!
# Verification of the x402 workflow observer event-sourcing core

Shallow embedding of the event-sourcing pipeline of the x402 workflow
observer backend (the repository under verification):

* `reduceWorkflow`, `reduceWorkflowFromEvents`, `validateEventOrdering`
  embed `backend/src/db/reducer.js`;
* `recordEvent`, `processAndPersistEvent`, `pollCycle` embed the polling
  listener `backend/src/blockchain/listener.js`;
* `replayAllOnEvents` / `replayAllEvents` embed `replayAllEvents` of the
  replay module (`replay.js`), with the Prisma tables modelled as an
  explicit `DBState` passed through the functions.

JavaScript BigInt and Number values that hold block data are modelled as
`Int`; JSON payload fields that may be absent are modelled as `Option`
fields; a value that JavaScript would leave `null`/`undefined` is `none`.
-/

namespace X402

/-- Variant payload of a chain event, embedding the JSON `payload` column.
Each event type populates only some of the fields
(`backend/src/blockchain/listener.js`, `processAndPersistEvent`); fields a
given payload does not carry are `none`, matching `undefined` access in
JavaScript. -/
structure Payload where
  initiator : Option String := none
  approved : Option Bool := none
  reason : Option String := none
  «to» : Option String := none
  amount : Option String := none
deriving DecidableEq, Repr

/-- A row of the `ChainEvent` table (Prisma schema). `eventType` is kept as
a string because the reducer switches on string values; `blockNumber` and
`blockTimestamp` are BigInt columns, `transactionIndex` and `logIndex` are
integer columns. -/
structure ChainEvent where
  workflowId : String
  eventType : String
  payload : Payload
  blockNumber : Int
  transactionIndex : Int
  logIndex : Int
  txHash : String
  blockTimestamp : Int
deriving DecidableEq, Repr

/-- A row of the `WorkflowState` table as produced by the reducer. `status`
is one of the strings RUNNING, COMPLETED, FAILED, REJECTED. -/
structure WorkflowState where
  workflowId : String
  status : String
  initiator : Option String
  startedAt : Int
  completedAt : Option Int
  failureReason : Option String
  lastEventBlock : Int
  lastEventLogIndex : Int
deriving DecidableEq, Repr

/-- The state freshly initialized by `reduceWorkflow` when called with a
null prior state (`reducer.js` lines 23-34). -/
def initState (event : ChainEvent) : WorkflowState :=
  { workflowId := event.workflowId
    status := "RUNNING"
    initiator := none
    startedAt := event.blockTimestamp
    completedAt := none
    failureReason := none
    lastEventBlock := event.blockNumber
    lastEventLogIndex := event.logIndex }

/-- Embedding of `reduceWorkflow(state, event)` (`reducer.js` lines 19-98).
The JavaScript function always returns an object: a null prior state is
replaced by the initialized state before the switch on `eventType`.  The
switch is embedded as a chain of string-equality tests; the truthiness test
`if (payload.approved)` becomes `getD false` (an absent field is falsy). -/
def reduceWorkflow (prior : Option WorkflowState) (event : ChainEvent) : WorkflowState :=
  let state := match prior with
    | none => initState event
    | some s => s
  if event.eventType = "WORKFLOW_STARTED" then
    { state with
      status := "RUNNING"
      initiator := event.payload.initiator
      startedAt := event.blockTimestamp
      lastEventBlock := event.blockNumber
      lastEventLogIndex := event.logIndex }
  else if event.eventType = "DECISION_RECORDED" then
    if event.payload.approved.getD false then
      { state with
        status := "RUNNING"
        lastEventBlock := event.blockNumber
        lastEventLogIndex := event.logIndex }
    else
      { state with
        status := "REJECTED"
        completedAt := some event.blockTimestamp
        failureReason := event.payload.reason
        lastEventBlock := event.blockNumber
        lastEventLogIndex := event.logIndex }
  else if event.eventType = "PAYMENT_EXECUTED" then
    { state with
      status := "RUNNING"
      lastEventBlock := event.blockNumber
      lastEventLogIndex := event.logIndex }
  else if event.eventType = "WORKFLOW_COMPLETED" then
    { state with
      status := "COMPLETED"
      completedAt := some event.blockTimestamp
      lastEventBlock := event.blockNumber
      lastEventLogIndex := event.logIndex }
  else if event.eventType = "WORKFLOW_FAILED" then
    { state with
      status := "FAILED"
      completedAt := some event.blockTimestamp
      failureReason := event.payload.reason
      lastEventBlock := event.blockNumber
      lastEventLogIndex := event.logIndex }
  else
    state

/-- Embedding of `reduceWorkflowFromEvents(events)` (`reducer.js` lines
105-117): start from a null state, fold every event through
`reduceWorkflow`, return the final state (null for an empty sequence). -/
def reduceWorkflowFromEvents (events : List ChainEvent) : Option WorkflowState :=
  events.foldl (fun s e => some (reduceWorkflow s e)) none

/-- Embedding of `validateEventOrdering(events)` (`reducer.js` lines
125-151): scan adjacent pairs and reject a decrease in blockNumber, a
decrease in transactionIndex within a block, or a non-increase of logIndex
within a transaction. -/
def validateEventOrdering : List ChainEvent → Bool
  | [] => true
  | [_] => true
  | prev :: curr :: rest =>
    if curr.blockNumber < prev.blockNumber then false
    else if curr.blockNumber = prev.blockNumber ∧
        curr.transactionIndex < prev.transactionIndex then false
    else if curr.blockNumber = prev.blockNumber ∧
        curr.transactionIndex = prev.transactionIndex ∧
        curr.logIndex ≤ prev.logIndex then false
    else validateEventOrdering (curr :: rest)

/-! ## Database model

The three Prisma tables are modelled as an explicit record threaded through
the embedded operations.  `chainEvents` is the `ChainEvent` table in
insertion order, `workflowStates` is the `WorkflowState` table as an
association list keyed by `workflowId`, and `lastProcessedBlock` is the
checkpoint column of the singleton `system_state` row (present after
`initializeSystemState` has run at boot). -/
structure DBState where
  chainEvents : List ChainEvent
  workflowStates : List (String × WorkflowState)
  lastProcessedBlock : Int
deriving DecidableEq, Repr

/-- Reading `WorkflowState` by primary key (`findUnique` on workflowId). -/
def stateLookup (states : List (String × WorkflowState)) (w : String) : Option WorkflowState :=
  (states.find? (fun g => g.1 = w)).map (fun g => g.2)

/-- Writing `WorkflowState` by primary key (`workflowState.upsert`):
replace the row when the key exists, append a new row otherwise. -/
def upsertState (states : List (String × WorkflowState)) (w : String) (s : WorkflowState) :
    List (String × WorkflowState) :=
  match states with
  | [] => [(w, s)]
  | g :: rest => if g.1 = w then (w, s) :: rest else g :: upsertState rest w s

/-- Embedding of the `chainEvent.upsert` with an empty `update` clause
(`listener.js` lines 79-88): insert the event when no row carries its
(txHash, logIndex) key, otherwise leave the table unchanged.  This is the
`recordEvent` contract of the Event Store. -/
def recordEvent (db : DBState) (e : ChainEvent) : DBState :=
  if db.chainEvents.any (fun x => x.txHash = e.txHash ∧ x.logIndex = e.logIndex) then db
  else { db with chainEvents := db.chainEvents ++ [e] }

/-- Embedding of `processAndPersistEvent` (`listener.js` lines 31-152):
idempotent insert into `ChainEvent`, then one incremental reducer step over
the stored prior state of the same workflow, then upsert of the result.
The receipt and block lookups that enrich a raw log are absorbed into the
`ChainEvent` value handed in. -/
def processAndPersistEvent (db : DBState) (e : ChainEvent) : DBState :=
  let db1 := recordEvent db e
  let prior := stateLookup db1.workflowStates e.workflowId
  let s := reduceWorkflow prior e
  { db1 with workflowStates := upsertState db1.workflowStates e.workflowId s }

/-! ## Replay engine -/

/-- The canonical ordering key comparison used by the `orderBy` clause of
the replay query: ascending (blockNumber, transactionIndex, logIndex). -/
def canonicalLE (a b : ChainEvent) : Prop :=
  a.blockNumber < b.blockNumber ∨
    (a.blockNumber = b.blockNumber ∧
      (a.transactionIndex < b.transactionIndex ∨
        (a.transactionIndex = b.transactionIndex ∧ a.logIndex ≤ b.logIndex)))

instance (a b : ChainEvent) : Decidable (canonicalLE a b) := by
  unfold canonicalLE; infer_instance

/-- Insertion step of the canonical sort. -/
def insertCanonical (e : ChainEvent) : List ChainEvent → List ChainEvent
  | [] => [e]
  | x :: xs => if canonicalLE e x then e :: x :: xs else x :: insertCanonical e xs

/-- The database query of `replayAllEvents`: all `ChainEvent` rows ordered
by the canonical key, modelled as an insertion sort of the table. -/
def sortCanonical (es : List ChainEvent) : List ChainEvent :=
  es.foldr insertCanonical []

/-- One step of the grouping loop of `replayAllEvents`: append the event to
the group of its workflowId, creating the group at the end on first sight
(JavaScript `Map` preserves insertion order). -/
def addToGroups (groups : List (String × List ChainEvent)) (e : ChainEvent) :
    List (String × List ChainEvent) :=
  match groups with
  | [] => [(e.workflowId, [e])]
  | g :: rest =>
    if g.1 = e.workflowId then (g.1, g.2 ++ [e]) :: rest
    else g :: addToGroups rest e

/-- Grouping of the replayed events by workflowId, preserving per-group
canonical order (`replay.js`, the `eventsByWorkflow` map). -/
def groupByWorkflow (events : List ChainEvent) : List (String × List ChainEvent) :=
  events.foldl addToGroups []

/-- The pure rebuild computation of `replayAllEvents`: group the loaded
events by workflowId and fold each group through the reducer, keeping the
workflows whose fold produced a state. -/
def rebuildStates (events : List ChainEvent) : List (String × WorkflowState) :=
  (groupByWorkflow events).filterMap
    (fun g => (reduceWorkflowFromEvents g.2).map (fun s => (g.1, s)))

/-- Statistics returned by `replayAllEvents`; the wall-clock `duration`
field is audit-only and not modelled. -/
structure ReplayStats where
  eventsProcessed : Nat
  workflowsRebuilt : Nat
deriving DecidableEq, Repr

/-- Embedding of `replayAllEvents` (replay.js lines 25-130) applied to the
list of events the canonical-order query returned.  The result pairs the
database state after the call with either the statistics or the thrown
error; an error is raised before the derived-state table is cleared, so the
database component is then unchanged. -/
def replayAllOnEvents (db : DBState) (events : List ChainEvent) :
    DBState × Except String ReplayStats :=
  if events.length = 0 then
    (db, Except.ok { eventsProcessed := 0, workflowsRebuilt := 0 })
  else if validateEventOrdering events = false then
    (db, Except.error "Events are not properly ordered - database corruption detected")
  else
    let newStates := rebuildStates events
    let db1 := { db with workflowStates := newStates }
    let db2 := match events.getLast? with
      | some last => { db1 with lastProcessedBlock := last.blockNumber }
      | none => db1
    (db2, Except.ok { eventsProcessed := events.length, workflowsRebuilt := newStates.length })

/-- `replayAllEvents` run against the database: the canonical-order query
feeds `replayAllOnEvents`. -/
def replayAllEvents (db : DBState) : DBState × Except String ReplayStats :=
  replayAllOnEvents db (sortCanonical db.chainEvents)

/-! ## Ingestor poll cycle -/

/-- The chunking loop of `pollEvents` (`listener.js` lines 186-192):
partition `[fromBlock, toBlock]` into ranges of at most `MAX_BLOCK_RANGE =
2000` blocks. -/
def buildChunks (fromBlock toBlock : Int) : List (Int × Int) :=
  if fromBlock > toBlock then []
  else (fromBlock, min (fromBlock + 1999) toBlock) :: buildChunks (fromBlock + 2000) toBlock
termination_by (toBlock + 1 - fromBlock).toNat
decreasing_by
  rename_i h
  simp only [not_lt] at h
  omega

/-- A block is covered by one of the queried ranges. -/
def coveredByRanges (ranges : List (Int × Int)) (b : Int) : Prop :=
  ∃ r ∈ ranges, r.1 ≤ b ∧ b ≤ r.2

/-- The five event signatures polled by the listener. -/
def eventTypeNames : List String :=
  ["WORKFLOW_STARTED", "DECISION_RECORDED", "PAYMENT_EXECUTED",
   "WORKFLOW_COMPLETED", "WORKFLOW_FAILED"]

/-- Result of one poll cycle: the database after the cycle together with
the block ranges handed to `getLogs`. -/
structure PollResult where
  db : DBState
  queriedRanges : List (Int × Int)
deriving Repr

/-- Embedding of one `pollEvents` cycle (`listener.js` lines 157-254).
`latestBlock` is the chain head, `confirmationBlocks` the configured
confirmation depth, and `chainLogs sig lo hi` stands for the collaborator
call chain `getLogs` (for signature `sig` over blocks `lo..hi`) composed
with the receipt and block lookups, yielding fully-formed events.  The
singleton `system_state` row is present, so the checkpoint fallback to
`config.blockStart` does not arise. -/
def pollCycle (db : DBState) (latestBlock confirmationBlocks : Int)
    (chainLogs : String → Int → Int → List ChainEvent) : PollResult :=
  let lastProcessedBlock := db.lastProcessedBlock
  let toBlock := latestBlock - confirmationBlocks
  let fromBlock := lastProcessedBlock + 1
  if fromBlock > toBlock then
    { db := db, queriedRanges := [] }
  else
    let chunks := buildChunks fromBlock toBlock
    let fetched := chunks.flatMap (fun c => eventTypeNames.flatMap (fun n => chainLogs n c.1 c.2))
    let db1 := fetched.foldl processAndPersistEvent db
    let db2 :=
      if fetched.length > 0 ∨ toBlock > lastProcessedBlock then
        { db1 with lastProcessedBlock := toBlock }
      else db1
    { db := db2, queriedRanges := chunks }

/-! ## Reducer fold lemmas -/

/-- Folding from a non-null state through the option-wrapping step equals
wrapping the plain fold. -/
theorem foldl_reduce_some (es : List ChainEvent) (s : WorkflowState) :
    es.foldl (fun t e => some (reduceWorkflow t e)) (some s) =
      some (es.foldl (fun t e => reduceWorkflow (some t) e) s) := by
  induction es generalizing s with
  | nil => rfl
  | cons e es ih => simpa only [List.foldl_cons] using ih (reduceWorkflow (some s) e)

/-- A non-empty fold starts by initializing from the head event. -/
theorem reduceWorkflowFromEvents_cons (e : ChainEvent) (es : List ChainEvent) :
    reduceWorkflowFromEvents (e :: es) =
      some (es.foldl (fun t ev => reduceWorkflow (some t) ev) (reduceWorkflow none e)) := by
  unfold reduceWorkflowFromEvents
  simpa only [List.foldl_cons] using foldl_reduce_some es (reduceWorkflow none e)

/-- Reducing a non-empty sequence always produces a state. -/
theorem reduceWorkflowFromEvents_ne_none (es : List ChainEvent) (h : es ≠ []) :
    reduceWorkflowFromEvents es ≠ none := by
  cases es with
  | nil => exact absurd rfl h
  | cons e es =>
    rw [reduceWorkflowFromEvents_cons]
    exact Option.some_ne_none _

/-! ## Grouping lemmas -/

/-- Association-list lookup into the grouping map. -/
def lookupGroup (groups : List (String × List ChainEvent)) (w : String) :
    Option (List ChainEvent) :=
  (groups.find? (fun g => g.1 = w)).map (fun g => g.2)

theorem lookupGroup_cons (g : String × List ChainEvent)
    (rest : List (String × List ChainEvent)) (w : String) :
    lookupGroup (g :: rest) w = if g.1 = w then some g.2 else lookupGroup rest w := by
  by_cases h : g.1 = w
  · simp [lookupGroup, List.find?, h]
  · simp [lookupGroup, List.find?, h]

theorem stateLookup_cons (g : String × WorkflowState)
    (rest : List (String × WorkflowState)) (w : String) :
    stateLookup (g :: rest) w = if g.1 = w then some g.2 else stateLookup rest w := by
  by_cases h : g.1 = w
  · simp [stateLookup, List.find?, h]
  · simp [stateLookup, List.find?, h]

/-- Effect of one grouping step on lookup: the event is appended to the
group of its workflowId, other groups are untouched. -/
theorem lookupGroup_addToGroups (gs : List (String × List ChainEvent)) (e : ChainEvent)
    (w : String) :
    lookupGroup (addToGroups gs e) w =
      if w = e.workflowId then some (((lookupGroup gs w).getD []) ++ [e])
      else lookupGroup gs w := by
  induction gs with
  | nil =>
    by_cases h : w = e.workflowId
    · rw [if_pos h]
      have h2 : e.workflowId = w := h.symm
      simp [addToGroups, lookupGroup, List.find?, h2]
    · rw [if_neg h]
      have h2 : ¬ e.workflowId = w := fun hh => h hh.symm
      simp [addToGroups, lookupGroup, List.find?, h2]
  | cons g rest ih =>
    by_cases hae : g.1 = e.workflowId
    · have hexp : addToGroups (g :: rest) e = (g.1, g.2 ++ [e]) :: rest := by
        simp only [addToGroups]
        rw [if_pos hae]
      rw [hexp, lookupGroup_cons, lookupGroup_cons]
      by_cases hw : g.1 = w
      · have hwe : w = e.workflowId := hw.symm.trans hae
        rw [if_pos hw, if_pos hw, if_pos hwe]
        rfl
      · have hwe : ¬ w = e.workflowId := fun hh => hw (hae.trans hh.symm)
        rw [if_neg hw, if_neg hw, if_neg hwe]
    · have hexp : addToGroups (g :: rest) e = g :: addToGroups rest e := by
        simp only [addToGroups]
        rw [if_neg hae]
      rw [hexp, lookupGroup_cons, lookupGroup_cons]
      by_cases hw : g.1 = w
      · have hwe : ¬ w = e.workflowId := fun hh => hae (hw.trans hh)
        rw [if_pos hw, if_pos hw, if_neg hwe]
      · rw [if_neg hw, if_neg hw, ih]

/-- Grouping a list extended on the right is one grouping step. -/
theorem groupByWorkflow_append (es : List ChainEvent) (e : ChainEvent) :
    groupByWorkflow (es ++ [e]) = addToGroups (groupByWorkflow es) e := by
  unfold groupByWorkflow
  rw [List.foldl_append]
  rfl

/-- The group of workflow w holds exactly the events of workflow w, in scan
order, and exists exactly when there is at least one such event. -/
theorem lookupGroup_groupByWorkflow (es : List ChainEvent) (w : String) :
    lookupGroup (groupByWorkflow es) w =
      if es.filter (fun e => e.workflowId = w) = [] then none
      else some (es.filter (fun e => e.workflowId = w)) := by
  induction es using List.reverseRecOn with
  | nil => simp [groupByWorkflow, lookupGroup, List.find?]
  | append_singleton es e ih =>
    rw [groupByWorkflow_append, lookupGroup_addToGroups, List.filter_append, ih]
    by_cases hw : w = e.workflowId
    · have h2 : e.workflowId = w := hw.symm
      have hfe : [e].filter (fun x => x.workflowId = w) = [e] := by
        simp [List.filter, h2]
      rw [if_pos hw, hfe]
      by_cases hf : es.filter (fun x => x.workflowId = w) = []
      · simp [hf]
      · simp [hf]
    · have h2 : ¬ e.workflowId = w := fun hh => hw hh.symm
      have hfe : [e].filter (fun x => x.workflowId = w) = [] := by
        simp [List.filter, h2]
      rw [if_neg hw, hfe, List.append_nil]

/-- Grouping never creates an empty group. -/
theorem addToGroups_nonempty (gs : List (String × List ChainEvent)) (e : ChainEvent)
    (h : ∀ g ∈ gs, g.2 ≠ []) :
    ∀ g ∈ addToGroups gs e, g.2 ≠ [] := by
  induction gs with
  | nil =>
    intro g hg
    simp only [addToGroups, List.mem_singleton] at hg
    subst hg
    simp
  | cons a rest ih =>
    intro g hg
    by_cases hae : a.1 = e.workflowId
    · rw [show addToGroups (a :: rest) e = (a.1, a.2 ++ [e]) :: rest by
        simp only [addToGroups]; rw [if_pos hae]] at hg
      rcases List.mem_cons.mp hg with hh | hh
      · subst hh; simp
      · exact h g (List.mem_cons_of_mem _ hh)
    · rw [show addToGroups (a :: rest) e = a :: addToGroups rest e by
        simp only [addToGroups]; rw [if_neg hae]] at hg
      rcases List.mem_cons.mp hg with hh | hh
      · rw [hh]; exact h a (List.mem_cons_self _ _)
      · exact ih (fun g' hg' => h g' (List.mem_cons_of_mem _ hg')) g hh

theorem groupByWorkflow_nonempty (es : List ChainEvent) :
    ∀ g ∈ groupByWorkflow es, g.2 ≠ [] := by
  induction es using List.reverseRecOn with
  | nil => intro g hg; simp [groupByWorkflow] at hg
  | append_singleton es e ih =>
    rw [groupByWorkflow_append]
    exact addToGroups_nonempty _ _ ih

/-- Looking up the reduced states equals reducing the looked-up group, as
long as no group is empty. -/
theorem stateLookup_filterMap (groups : List (String × List ChainEvent)) (w : String)
    (h : ∀ g ∈ groups, g.2 ≠ []) :
    stateLookup (groups.filterMap
        (fun g => (reduceWorkflowFromEvents g.2).map (fun s => (g.1, s)))) w =
      (lookupGroup groups w).bind reduceWorkflowFromEvents := by
  induction groups with
  | nil => rfl
  | cons g rest ih =>
    obtain ⟨s, hs⟩ : ∃ s, reduceWorkflowFromEvents g.2 = some s := by
      cases hr : reduceWorkflowFromEvents g.2 with
      | none => exact absurd hr (reduceWorkflowFromEvents_ne_none _ (h g (List.mem_cons_self _ _)))
      | some s => exact ⟨s, rfl⟩
    rw [List.filterMap_cons]
    rw [hs]
    simp only [Option.map_some']
    rw [stateLookup_cons, lookupGroup_cons]
    by_cases hgw : g.1 = w
    · rw [if_pos hgw, if_pos hgw]
      simp only [Option.some_bind]
      exact hs.symm
    · rw [if_neg hgw, if_neg hgw, ih (fun g' hg' => h g' (List.mem_cons_of_mem _ hg'))]

/-- The central grouping property: the state the rebuild computes for a
workflow is the fold of the reducer over exactly that workflow's events, in
the order they occur in the input sequence. -/
theorem stateLookup_rebuildStates (events : List ChainEvent) (w : String) :
    stateLookup (rebuildStates events) w =
      reduceWorkflowFromEvents (events.filter (fun e => e.workflowId = w)) := by
  unfold rebuildStates
  rw [stateLookup_filterMap _ _ (groupByWorkflow_nonempty events)]
  rw [lookupGroup_groupByWorkflow]
  by_cases hf : events.filter (fun e => e.workflowId = w) = []
  · rw [if_pos hf, hf]
    rfl
  · rw [if_neg hf]
    simp only [Option.some_bind]

/-! ## Replay engine lemmas -/

/-- Replay never writes to the `ChainEvent` table. -/
theorem replayAllOnEvents_chainEvents (db : DBState) (es : List ChainEvent) :
    ((replayAllOnEvents db es).1).chainEvents = db.chainEvents := by
  unfold replayAllOnEvents
  split
  · rfl
  · split
    · rfl
    · split <;> rfl

/-- The states a successful non-trivial replay leaves behind are exactly
the rebuilt ones. -/
theorem replayAllOnEvents_ok_workflowStates (db : DBState) (es : List ChainEvent)
    (hne : es ≠ []) (s : ReplayStats)
    (hok : (replayAllOnEvents db es).2 = Except.ok s) :
    ((replayAllOnEvents db es).1).workflowStates = rebuildStates es := by
  unfold replayAllOnEvents at hok ⊢
  split at hok
  · rename_i hlen
    exact absurd (List.length_eq_zero.mp hlen) hne
  · split at hok
    · simp at hok
    · rename_i h1 h2
      rw [if_neg h1, if_neg h2]
      split <;> rfl

/-- A successful replay on a non-empty sequence implies the ordering
validation passed. -/
theorem replayAllOnEvents_ok_valid (db : DBState) (es : List ChainEvent)
    (hne : es ≠ []) (s : ReplayStats)
    (hok : (replayAllOnEvents db es).2 = Except.ok s) :
    validateEventOrdering es = true := by
  unfold replayAllOnEvents at hok
  split at hok
  · rename_i hlen
    exact absurd (List.length_eq_zero.mp hlen) hne
  · split at hok
    · simp at hok
    · rename_i h1 h2
      exact Bool.of_not_eq_false h2

/-- The checkpoint a replay leaves behind is either untouched or the block
number of the last loaded event. -/
theorem replayAllOnEvents_lastProcessedBlock (db : DBState) (es : List ChainEvent) :
    ((replayAllOnEvents db es).1).lastProcessedBlock = db.lastProcessedBlock ∨
      ∃ last, es.getLast? = some last ∧
        ((replayAllOnEvents db es).1).lastProcessedBlock = last.blockNumber := by
  unfold replayAllOnEvents
  split
  · exact Or.inl rfl
  · split
    · exact Or.inl rfl
    · split
      · rename_i last hlast
        exact Or.inr ⟨last, hlast, rfl⟩
      · exact Or.inl rfl

/-! ## Ordering validation lemmas -/

/-- A validated sequence has nondecreasing block numbers between adjacent
events, and its tail is validated too. -/
theorem validateEventOrdering_cons_true (p c : ChainEvent) (t : List ChainEvent)
    (h : validateEventOrdering (p :: c :: t) = true) :
    p.blockNumber ≤ c.blockNumber ∧ validateEventOrdering (c :: t) = true := by
  unfold validateEventOrdering at h
  split at h
  · exact absurd h (by simp)
  · split at h
    · exact absurd h (by simp)
    · split at h
      · exact absurd h (by simp)
      · rename_i h1 h2 h3
        exact ⟨le_of_not_lt h1, h⟩

/-- In a validated sequence every block number is bounded by the block
number of the last event. -/
theorem validate_le_getLast (es : List ChainEvent) (l : ChainEvent)
    (hv : validateEventOrdering es = true) (hl : es.getLast? = some l) :
    ∀ e ∈ es, e.blockNumber ≤ l.blockNumber := by
  induction es with
  | nil => simp at hl
  | cons a t ih =>
    cases t with
    | nil =>
      intro e he
      simp only [List.getLast?_singleton, Option.some_inj] at hl
      rcases List.mem_singleton.mp he with rfl
      rw [hl]
    | cons b t2 =>
      obtain ⟨hab, hv2⟩ := validateEventOrdering_cons_true a b t2 hv
      have hl2 : (b :: t2).getLast? = some l := by
        rwa [List.getLast?_cons_cons] at hl
      intro e he
      rcases List.mem_cons.mp he with rfl | he2
      · exact le_trans hab (ih hv2 hl2 b (List.mem_cons_self _ _))
      · exact ih hv2 hl2 e he2

/-! ## Canonical sort lemmas -/

theorem mem_insertCanonical (a e : ChainEvent) (l : List ChainEvent) :
    a ∈ insertCanonical e l ↔ a = e ∨ a ∈ l := by
  induction l with
  | nil => simp [insertCanonical]
  | cons x xs ih =>
    unfold insertCanonical
    split
    · simp [List.mem_cons]
    · simp only [List.mem_cons, ih]
      tauto

theorem mem_sortCanonical (a : ChainEvent) (es : List ChainEvent) :
    a ∈ sortCanonical es ↔ a ∈ es := by
  induction es with
  | nil => simp [sortCanonical]
  | cons e t ih =>
    show a ∈ insertCanonical e (sortCanonical t) ↔ _
    rw [mem_insertCanonical]
    simp [List.mem_cons, ih]

/-! ## Concrete fixtures

Concrete events used to instantiate witnesses and counterexamples; the
first four are the literal scenario of the reducer-correctness property. -/

def evStarted : ChainEvent :=
  { workflowId := "wf1", eventType := "WORKFLOW_STARTED"
    payload := { initiator := some "0xA" }
    blockNumber := 10, transactionIndex := 0, logIndex := 0
    txHash := "0xt1", blockTimestamp := 1000 }

def evApproved : ChainEvent :=
  { workflowId := "wf1", eventType := "DECISION_RECORDED"
    payload := { approved := some true }
    blockNumber := 11, transactionIndex := 0, logIndex := 0
    txHash := "0xt2", blockTimestamp := 1010 }

def evPayment : ChainEvent :=
  { workflowId := "wf1", eventType := "PAYMENT_EXECUTED"
    payload := { «to» := some "0xB", amount := some "500" }
    blockNumber := 12, transactionIndex := 0, logIndex := 0
    txHash := "0xt3", blockTimestamp := 1020 }

def evCompleted : ChainEvent :=
  { workflowId := "wf1", eventType := "WORKFLOW_COMPLETED"
    payload := {}
    blockNumber := 13, transactionIndex := 0, logIndex := 0
    txHash := "0xt4", blockTimestamp := 1030 }

def evRejected : ChainEvent :=
  { workflowId := "wf1", eventType := "DECISION_RECORDED"
    payload := { approved := some false, reason := some "fraud" }
    blockNumber := 11, transactionIndex := 0, logIndex := 0
    txHash := "0xt5", blockTimestamp := 1010 }

def evUnknown : ChainEvent :=
  { workflowId := "wf1", eventType := "SOMETHING_ELSE"
    payload := {}
    blockNumber := 7, transactionIndex := 0, logIndex := 0
    txHash := "0xt6", blockTimestamp := 70 }

def evLow : ChainEvent :=
  { workflowId := "wf1", eventType := "WORKFLOW_STARTED"
    payload := { initiator := some "0xA" }
    blockNumber := 50, transactionIndex := 0, logIndex := 0
    txHash := "0xt7", blockTimestamp := 500 }

/-- A database whose checkpoint has advanced past the only stored event. -/
def dbCheckpoint : DBState :=
  { chainEvents := [evLow], workflowStates := [], lastProcessedBlock := 100 }

/-- A small database with one stored event. -/
def dbBase : DBState :=
  { chainEvents := [evStarted], workflowStates := [], lastProcessedBlock := 0 }

/-- An empty database. -/
def dbEmpty : DBState :=
  { chainEvents := [], workflowStates := [], lastProcessedBlock := 0 }

/-- An event carrying the same (txHash, logIndex) key as `evStarted` but a
different payload and different ordering metadata. -/
def evDup : ChainEvent :=
  { workflowId := "wf1", eventType := "WORKFLOW_FAILED"
    payload := { reason := some "other" }
    blockNumber := 99, transactionIndex := 5, logIndex := 0
    txHash := "0xt1", blockTimestamp := 9999 }

/-- A derived state that has already reached COMPLETED. -/
def priorCompleted : WorkflowState :=
  { workflowId := "wf1", status := "COMPLETED", initiator := some "0xA"
    startedAt := 1000, completedAt := some 1030, failureReason := none
    lastEventBlock := 13, lastEventLogIndex := 0 }

/-! ## Claim theorems -/

/-- C1: replay is deterministic. Running `replayAllEvents` a second time
over the database a first successful run produced yields WorkflowState
rows identical in every field, and the state the replay computation
derives for each workflow w is exactly the fold of the reducer over the
canonically sorted events whose workflowId is w. -/
theorem claim1_replay_determinism :
    (∀ (db db1 db2 : DBState) (s1 s2 : ReplayStats),
        replayAllEvents db = (db1, Except.ok s1) →
        replayAllEvents db1 = (db2, Except.ok s2) →
        db1.workflowStates = db2.workflowStates) ∧
    (∀ (rows : List ChainEvent) (w : String),
        stateLookup (rebuildStates (sortCanonical rows)) w =
          reduceWorkflowFromEvents
            ((sortCanonical rows).filter (fun e => e.workflowId = w))) := by
  constructor
  · intro db db1 db2 s1 s2 h1 h2
    have e1 : (replayAllEvents db).1 = db1 := by rw [h1]
    have o1 : (replayAllEvents db).2 = Except.ok s1 := by rw [h1]
    have e2 : (replayAllEvents db1).1 = db2 := by rw [h2]
    have o2 : (replayAllEvents db1).2 = Except.ok s2 := by rw [h2]
    by_cases hes : sortCanonical db.chainEvents = []
    · have hdb1 : db1 = db := by
        rw [← e1]
        show (replayAllOnEvents db (sortCanonical db.chainEvents)).1 = db
        rw [hes]
        rfl
      have hdb2 : db2 = db1 := by
        rw [← e2, hdb1]
        show (replayAllOnEvents db (sortCanonical db.chainEvents)).1 = db
        rw [hes]
        rfl
      rw [hdb2]
    · have hchain : db1.chainEvents = db.chainEvents := by
        rw [← e1]
        exact replayAllOnEvents_chainEvents db _
      have hws1 : db1.workflowStates = rebuildStates (sortCanonical db.chainEvents) := by
        rw [← e1]
        exact replayAllOnEvents_ok_workflowStates db _ hes s1 o1
      have o2a : (replayAllOnEvents db1 (sortCanonical db1.chainEvents)).2 = Except.ok s2 := o2
      rw [hchain] at o2a
      have e2a : (replayAllOnEvents db1 (sortCanonical db1.chainEvents)).1 = db2 := e2
      rw [hchain] at e2a
      have hws2 : db2.workflowStates = rebuildStates (sortCanonical db.chainEvents) := by
        rw [← e2a]
        exact replayAllOnEvents_ok_workflowStates db1 _ hes s2 o2a
      rw [hws1, hws2]
  · intro rows w
    exact stateLookup_rebuildStates _ w

/-- Witness for C1 at a concrete one-event database: both hypotheses of
the determinism part are discharged by computation. -/
theorem claim1_witness :
    (replayAllEvents dbBase).1.workflowStates =
      (replayAllEvents ((replayAllEvents dbBase).1)).1.workflowStates :=
  claim1_replay_determinism.1 dbBase ((replayAllEvents dbBase).1)
    ((replayAllEvents ((replayAllEvents dbBase).1)).1)
    { eventsProcessed := 1, workflowsRebuilt := 1 }
    { eventsProcessed := 1, workflowsRebuilt := 1 }
    rfl rfl

/-- An adjacent violation at the head makes validation fail. -/
theorem validateEventOrdering_violation_head (p c : ChainEvent) (t : List ChainEvent)
    (hv : c.blockNumber < p.blockNumber ∨
      (c.blockNumber = p.blockNumber ∧ c.transactionIndex < p.transactionIndex) ∨
      (c.blockNumber = p.blockNumber ∧ c.transactionIndex = p.transactionIndex ∧
        c.logIndex ≤ p.logIndex)) :
    validateEventOrdering (p :: c :: t) = false := by
  unfold validateEventOrdering
  split
  · rfl
  · split
    · rfl
    · split
      · rfl
      · rename_i h1 h2 h3
        rcases hv with hv | hv | hv
        · exact absurd hv h1
        · exact absurd hv h2
        · exact absurd hv h3

/-- A failing validation stays failing under extension on the left. -/
theorem validateEventOrdering_false_extend (x : ChainEvent) (l : List ChainEvent)
    (h : validateEventOrdering l = false) (hne : l ≠ []) :
    validateEventOrdering (x :: l) = false := by
  cases l with
  | nil => exact absurd rfl hne
  | cons y t =>
    unfold validateEventOrdering
    split
    · rfl
    · split
      · rfl
      · split
        · rfl
        · exact h

/-- An adjacent violation anywhere makes validation fail. -/
theorem validateEventOrdering_violation (l1 : List ChainEvent) (p c : ChainEvent)
    (l2 : List ChainEvent)
    (hv : c.blockNumber < p.blockNumber ∨
      (c.blockNumber = p.blockNumber ∧ c.transactionIndex < p.transactionIndex) ∨
      (c.blockNumber = p.blockNumber ∧ c.transactionIndex = p.transactionIndex ∧
        c.logIndex ≤ p.logIndex)) :
    validateEventOrdering (l1 ++ p :: c :: l2) = false := by
  induction l1 with
  | nil => exact validateEventOrdering_violation_head p c l2 hv
  | cons x t ih =>
    have hne : t ++ p :: c :: l2 ≠ [] := by simp
    exact validateEventOrdering_false_extend x _ ih hne

/-- C2: any adjacent pair violating the canonical order (smaller
blockNumber; equal blockNumber and smaller transactionIndex; equal both
and non-increasing logIndex, duplicates included) makes `isOrdered`
(`validateEventOrdering`) return false, and replay over such a loaded
sequence raises the corruption error while leaving the database, in
particular every WorkflowState row, exactly as it was. -/
theorem claim2_ordering_rejection :
    ∀ (db : DBState) (l1 : List ChainEvent) (p c : ChainEvent) (l2 : List ChainEvent),
      (c.blockNumber < p.blockNumber ∨
        (c.blockNumber = p.blockNumber ∧ c.transactionIndex < p.transactionIndex) ∨
        (c.blockNumber = p.blockNumber ∧ c.transactionIndex = p.transactionIndex ∧
          c.logIndex ≤ p.logIndex)) →
      validateEventOrdering (l1 ++ p :: c :: l2) = false ∧
      (replayAllOnEvents db (l1 ++ p :: c :: l2)).1 = db ∧
      (replayAllOnEvents db (l1 ++ p :: c :: l2)).2 =
        Except.error "Events are not properly ordered - database corruption detected" := by
  intro db l1 p c l2 hv
  have hfalse := validateEventOrdering_violation l1 p c l2 hv
  have hlen : ¬ (l1 ++ p :: c :: l2).length = 0 := by simp
  refine ⟨hfalse, ?_, ?_⟩
  · unfold replayAllOnEvents
    rw [if_neg hlen, if_pos hfalse]
  · unfold replayAllOnEvents
    rw [if_neg hlen, if_pos hfalse]

/-- Witness for C2: two events with decreasing block numbers are rejected
and leave the database untouched. -/
theorem claim2_witness :
    validateEventOrdering ([] ++ evApproved :: evStarted :: []) = false ∧
    (replayAllOnEvents dbCheckpoint ([] ++ evApproved :: evStarted :: [])).1 = dbCheckpoint ∧
    (replayAllOnEvents dbCheckpoint ([] ++ evApproved :: evStarted :: [])).2 =
      Except.error "Events are not properly ordered - database corruption detected" :=
  claim2_ordering_rejection dbCheckpoint [] evApproved evStarted [] (Or.inl (by decide))

/-- Neither the event insert nor the state upsert of the incremental
ingest path touches the checkpoint. -/
theorem processAndPersistEvent_lastProcessedBlock (db : DBState) (e : ChainEvent) :
    (processAndPersistEvent db e).lastProcessedBlock = db.lastProcessedBlock := by
  unfold processAndPersistEvent recordEvent
  split <;> rfl

theorem foldl_process_lastProcessedBlock (l : List ChainEvent) (db : DBState) :
    (l.foldl processAndPersistEvent db).lastProcessedBlock = db.lastProcessedBlock := by
  induction l generalizing db with
  | nil => rfl
  | cons e t ih => rw [List.foldl_cons, ih, processAndPersistEvent_lastProcessedBlock]

/-- C3 counterexample: the claim says a replay pass over events whose
maximum blockNumber is below the current checkpoint does not lower the
checkpoint; on a database whose checkpoint is 100 and whose only event
sits at block 50, a successful replay lowers the checkpoint to 50. -/
theorem claim3_counterexample :
    dbCheckpoint.lastProcessedBlock = 100 ∧
    (replayAllEvents dbCheckpoint).2 =
      Except.ok { eventsProcessed := 1, workflowsRebuilt := 1 } ∧
    (replayAllEvents dbCheckpoint).1.lastProcessedBlock = 50 ∧
    (50 : Int) < 100 :=
  ⟨rfl, rfl, by decide, by norm_num⟩

/-- C3 as amended: a poll cycle never decreases the checkpoint, while a
successful replay either leaves the checkpoint unchanged (no events) or
sets it to the maximum blockNumber among the stored events, a value that
may be lower than the prior checkpoint. -/
theorem claim3_checkpoint_amended :
    (∀ (db : DBState) (latestBlock confirmationBlocks : Int)
        (chainLogs : String → Int → Int → List ChainEvent),
        db.lastProcessedBlock ≤
          (pollCycle db latestBlock confirmationBlocks chainLogs).db.lastProcessedBlock) ∧
    (∀ (db db2 : DBState) (s : ReplayStats),
        replayAllEvents db = (db2, Except.ok s) →
        db2.lastProcessedBlock = db.lastProcessedBlock ∨
          ∃ e ∈ db.chainEvents, db2.lastProcessedBlock = e.blockNumber ∧
            ∀ x ∈ db.chainEvents, x.blockNumber ≤ e.blockNumber) := by
  constructor
  · intro db latestBlock confirmationBlocks chainLogs
    simp only [pollCycle]
    split
    · exact le_refl _
    · rename_i hrange
      split
      · simp only
        omega
      · simp only [foldl_process_lastProcessedBlock]
        exact le_refl _
  · intro db db2 s h
    have e1 : (replayAllEvents db).1 = db2 := by rw [h]
    have o1 : (replayAllEvents db).2 = Except.ok s := by rw [h]
    rcases replayAllOnEvents_lastProcessedBlock db (sortCanonical db.chainEvents)
      with hc | ⟨last, hlast, hc⟩
    · left
      rw [← e1]
      exact hc
    · right
      by_cases hes : sortCanonical db.chainEvents = []
      · rw [hes] at hlast
        simp at hlast
      · have hval := replayAllOnEvents_ok_valid db _ hes s o1
        have hmem : last ∈ sortCanonical db.chainEvents := by
          obtain ⟨hne2, hlastEq⟩ := List.mem_getLast?_eq_getLast hlast
          rw [hlastEq]
          exact List.getLast_mem hne2
        refine ⟨last, (mem_sortCanonical last _).mp hmem, ?_, ?_⟩
        · rw [← e1]
          exact hc
        · intro x hx
          exact validate_le_getLast _ last hval hlast x ((mem_sortCanonical x _).mpr hx)

/-- Witness for C3 as amended, at a concrete empty poll and a concrete
one-event replay. -/
theorem claim3_witness :
    dbBase.lastProcessedBlock ≤
      (pollCycle dbBase 10 3 (fun _ _ _ => [])).db.lastProcessedBlock ∧
    ((replayAllEvents dbBase).1.lastProcessedBlock = dbBase.lastProcessedBlock ∨
      ∃ e ∈ dbBase.chainEvents,
        (replayAllEvents dbBase).1.lastProcessedBlock = e.blockNumber ∧
        ∀ x ∈ dbBase.chainEvents, x.blockNumber ≤ e.blockNumber) :=
  ⟨claim3_checkpoint_amended.1 dbBase 10 3 (fun _ _ _ => []),
   claim3_checkpoint_amended.2 dbBase (replayAllEvents dbBase).1
     { eventsProcessed := 1, workflowsRebuilt := 1 } rfl⟩

/-- C4: `recordEvent` is idempotent with first-write-wins. A second call
whose event shares the (txHash, logIndex) key of a stored row, whatever
its payload and ordering metadata, returns without error and leaves the
store exactly as after the first call. -/
theorem claim4_recordEvent_idempotent :
    ∀ (db : DBState) (e e2 : ChainEvent),
      e2.txHash = e.txHash → e2.logIndex = e.logIndex →
      recordEvent (recordEvent db e) e2 = recordEvent db e := by
  intro db e e2 ht hl
  have hkey : (recordEvent db e).chainEvents.any
      (fun x => x.txHash = e2.txHash ∧ x.logIndex = e2.logIndex) = true := by
    rw [ht, hl]
    unfold recordEvent
    split
    · rename_i hdup
      exact hdup
    · rename_i hdup
      simp
  have hstep : recordEvent (recordEvent db e) e2 =
      if (recordEvent db e).chainEvents.any
          (fun x => x.txHash = e2.txHash ∧ x.logIndex = e2.logIndex) then recordEvent db e
      else { recordEvent db e with
             chainEvents := (recordEvent db e).chainEvents ++ [e2] } := rfl
  rw [hstep, if_pos hkey]

/-- Witness for C4: re-recording under the key of `evStarted` with a
different payload and different ordering metadata changes nothing. -/
theorem claim4_witness :
    recordEvent (recordEvent dbEmpty evStarted) evDup = recordEvent dbEmpty evStarted :=
  claim4_recordEvent_idempotent dbEmpty evStarted evDup rfl rfl

/-- C5 counterexample: the event type of `evUnknown` is none of the five
known types, yet reducing it over a null prior state yields a state, not
null, refuting that a none prior stays none. -/
theorem claim5_counterexample :
    evUnknown.eventType ∉ eventTypeNames ∧ reduceWorkflowFromEvents [evUnknown] ≠ none := by
  constructor
  · decide
  · decide

/-- C5 as amended: on an unknown event type the reducer returns a non-none
prior state unchanged in every field, while a none prior yields the freshly
initialized state (status RUNNING, initiator none, startedAt and position
markers from the event). -/
theorem claim5_unknown_amended :
    ∀ (s : WorkflowState) (e : ChainEvent),
      e.eventType ∉ eventTypeNames →
      reduceWorkflow (some s) e = s ∧ reduceWorkflow none e = initState e := by
  intro s e h
  simp only [eventTypeNames, List.mem_cons, List.not_mem_nil, or_false] at h
  push_neg at h
  obtain ⟨h1, h2, h3, h4, h5⟩ := h
  constructor
  · simp [reduceWorkflow, h1, h2, h3, h4, h5]
  · simp [reduceWorkflow, h1, h2, h3, h4, h5]

/-- Witness for C5 as amended at the concrete unknown event. -/
theorem claim5_witness :
    reduceWorkflow (some priorCompleted) evUnknown = priorCompleted ∧
    reduceWorkflow none evUnknown = initState evUnknown :=
  claim5_unknown_amended priorCompleted evUnknown (by decide)

/-- C6 counterexample: a PAYMENT_EXECUTED event applied to a prior state
whose status is COMPLETED changes the status field (to RUNNING), refuting
that the result equals the prior state in status for every prior. -/
theorem claim6_counterexample :
    evPayment.eventType = "PAYMENT_EXECUTED" ∧
    priorCompleted.status = "COMPLETED" ∧
    (reduceWorkflow (some priorCompleted) evPayment).status ≠ priorCompleted.status := by
  refine ⟨rfl, rfl, ?_⟩
  decide

/-- C6 as amended: PAYMENT_EXECUTED maps a non-none prior to the prior
with status set to RUNNING and the position markers set to the event's
position; initiator, startedAt, completedAt and failureReason are
untouched, and the status is unchanged exactly when it was RUNNING. -/
theorem claim6_payment_frame_amended :
    ∀ (s : WorkflowState) (e : ChainEvent),
      e.eventType = "PAYMENT_EXECUTED" →
      reduceWorkflow (some s) e =
        { s with status := "RUNNING", lastEventBlock := e.blockNumber,
                 lastEventLogIndex := e.logIndex } := by
  intro s e h
  simp [reduceWorkflow, h]

/-- Witness for C6 as amended at the concrete payment event. -/
theorem claim6_witness :
    reduceWorkflow (some priorCompleted) evPayment =
      { priorCompleted with
        status := "RUNNING", lastEventBlock := evPayment.blockNumber,
        lastEventLogIndex := evPayment.logIndex } :=
  claim6_payment_frame_amended priorCompleted evPayment rfl

/-- C7: the literal four-event scenario folds to the expected COMPLETED
state with startedAt 1000, completedAt 1030 and lastEventBlock 13. -/
theorem claim7_literal_fold :
    reduceWorkflowFromEvents [evStarted, evApproved, evPayment, evCompleted] =
      some { workflowId := "wf1", status := "COMPLETED", initiator := some "0xA",
             startedAt := 1000, completedAt := some 1030, failureReason := none,
             lastEventBlock := 13, lastEventLogIndex := 0 } := by
  decide

/-- C8: the literal rejection scenario folds to REJECTED with completedAt
1010 and failureReason fraud, and in general a DECISION_RECORDED event
whose payload carries approved=false sets status REJECTED, completedAt to
the event's blockTimestamp and failureReason to the payload's reason. -/
theorem claim8_rejection_path :
    (reduceWorkflowFromEvents [evStarted, evRejected] =
      some { workflowId := "wf1", status := "REJECTED", initiator := some "0xA",
             startedAt := 1000, completedAt := some 1010, failureReason := some "fraud",
             lastEventBlock := 11, lastEventLogIndex := 0 }) ∧
    (∀ (prior : Option WorkflowState) (e : ChainEvent),
      e.eventType = "DECISION_RECORDED" → e.payload.approved = some false →
      (reduceWorkflow prior e).status = "REJECTED" ∧
      (reduceWorkflow prior e).completedAt = some e.blockTimestamp ∧
      (reduceWorkflow prior e).failureReason = e.payload.reason) := by
  constructor
  · decide
  · intro prior e ht ha
    simp [reduceWorkflow, ht, ha]

/-- Witness for C8 at the concrete rejection event over a none prior. -/
theorem claim8_witness :
    (reduceWorkflow none evRejected).status = "REJECTED" ∧
    (reduceWorkflow none evRejected).completedAt = some evRejected.blockTimestamp ∧
    (reduceWorkflow none evRejected).failureReason = evRejected.payload.reason :=
  claim8_rejection_path.2 none evRejected rfl rfl

/-- Any event that is not WORKFLOW_STARTED leaves initiator and startedAt
of a non-none prior unchanged. -/
theorem reduceWorkflow_not_started_fields (s : WorkflowState) (e : ChainEvent)
    (h : ¬ e.eventType = "WORKFLOW_STARTED") :
    (reduceWorkflow (some s) e).initiator = s.initiator ∧
    (reduceWorkflow (some s) e).startedAt = s.startedAt := by
  simp only [reduceWorkflow]
  rw [if_neg h]
  repeat' split
  all_goals exact ⟨rfl, rfl⟩

/-- Any event that is not WORKFLOW_STARTED applied to a none prior yields
initiator none and startedAt equal to the event's blockTimestamp. -/
theorem reduceWorkflow_none_not_started_fields (e : ChainEvent)
    (h : ¬ e.eventType = "WORKFLOW_STARTED") :
    (reduceWorkflow none e).initiator = none ∧
    (reduceWorkflow none e).startedAt = e.blockTimestamp := by
  simp only [reduceWorkflow]
  rw [if_neg h]
  repeat' split
  all_goals exact ⟨rfl, rfl⟩

theorem foldl_reduce_not_started (es : List ChainEvent) (s0 : WorkflowState)
    (h : ∀ x ∈ es, ¬ x.eventType = "WORKFLOW_STARTED") :
    (es.foldl (fun t ev => reduceWorkflow (some t) ev) s0).initiator = s0.initiator ∧
    (es.foldl (fun t ev => reduceWorkflow (some t) ev) s0).startedAt = s0.startedAt := by
  induction es generalizing s0 with
  | nil => exact ⟨rfl, rfl⟩
  | cons x t ih =>
    rw [List.foldl_cons]
    obtain ⟨hi, hs⟩ := ih (reduceWorkflow (some s0) x)
      (fun y hy => h y (List.mem_cons_of_mem _ hy))
    obtain ⟨hi0, hs0⟩ := reduceWorkflow_not_started_fields s0 x (h x (List.mem_cons_self _ _))
    exact ⟨hi.trans hi0, hs.trans hs0⟩

/-- C10: folding a non-empty sequence that contains no WORKFLOW_STARTED
event yields a state whose initiator is none and whose startedAt is the
blockTimestamp of the first event of the sequence. -/
theorem claim10_no_started :
    ∀ (e : ChainEvent) (es : List ChainEvent),
      (∀ x ∈ e :: es, ¬ x.eventType = "WORKFLOW_STARTED") →
      ∃ s, reduceWorkflowFromEvents (e :: es) = some s ∧
        s.initiator = none ∧ s.startedAt = e.blockTimestamp := by
  intro e es h
  obtain ⟨hi, hs⟩ := foldl_reduce_not_started es (reduceWorkflow none e)
    (fun y hy => h y (List.mem_cons_of_mem _ hy))
  obtain ⟨hi0, hs0⟩ := reduceWorkflow_none_not_started_fields e (h e (List.mem_cons_self _ _))
  rw [reduceWorkflowFromEvents_cons]
  exact ⟨_, rfl, hi.trans hi0, hs.trans hs0⟩

/-- Witness for C10 at a concrete single payment event. -/
theorem claim10_witness :
    ∃ s, reduceWorkflowFromEvents [evPayment] = some s ∧
      s.initiator = none ∧ s.startedAt = evPayment.blockTimestamp :=
  claim10_no_started evPayment [] (by decide)

/-- The chunking loop covers exactly the blocks of `[fromBlock, toBlock]`. -/
theorem coveredByRanges_buildChunks (f t b : Int) :
    coveredByRanges (buildChunks f t) b ↔ f ≤ b ∧ b ≤ t := by
  induction f, t using buildChunks.induct with
  | case1 f t h =>
    rw [buildChunks, if_pos h]
    constructor
    · rintro ⟨r, hr, _⟩
      exact absurd hr (List.not_mem_nil r)
    · rintro ⟨h1, h2⟩
      omega
  | case2 f t h ih =>
    rw [buildChunks, if_neg h]
    constructor
    · rintro ⟨r, hr, hb1, hb2⟩
      rcases List.mem_cons.mp hr with rfl | hr2
      · refine ⟨hb1, le_trans hb2 (min_le_right _ _)⟩
      · have h2 := ih.mp ⟨r, hr2, hb1, hb2⟩
        omega
    · rintro ⟨h1, h2⟩
      by_cases hsplit : b ≤ min (f + 1999) t
      · exact ⟨(f, min (f + 1999) t), List.mem_cons_self _ _, h1, hsplit⟩
      · obtain ⟨r, hr, hb1, hb2⟩ := ih.mpr (by omega)
        exact ⟨r, List.mem_cons_of_mem _ hr, hb1, hb2⟩

/-- Incremental ingestion only ever appends the processed events to the
`ChainEvent` table. -/
theorem mem_chainEvents_foldl (l : List ChainEvent) (db : DBState) (e : ChainEvent)
    (h : e ∈ (l.foldl processAndPersistEvent db).chainEvents) :
    e ∈ db.chainEvents ∨ e ∈ l := by
  induction l generalizing db with
  | nil => exact Or.inl h
  | cons x t ih =>
    rw [List.foldl_cons] at h
    rcases ih (processAndPersistEvent db x) h with h2 | h2
    · have hce : (processAndPersistEvent db x).chainEvents = db.chainEvents ∨
          (processAndPersistEvent db x).chainEvents = db.chainEvents ++ [x] := by
        unfold processAndPersistEvent recordEvent
        split
        · exact Or.inl rfl
        · exact Or.inr rfl
      rcases hce with hce | hce
      · rw [hce] at h2
        exact Or.inl h2
      · rw [hce] at h2
        rcases List.mem_append.mp h2 with h3 | h3
        · exact Or.inl h3
        · rcases List.mem_singleton.mp h3 with rfl
          exact Or.inr (List.mem_cons_self _ _)
    · exact Or.inr (List.mem_cons_of_mem _ h2)

/-- C9: a poll cycle queries exactly the blocks from checkpoint+1 through
head minus confirmation depth (no range at all when that window is empty),
and, provided the chain collaborator only returns logs inside the
requested range, every event present after the cycle was either already
stored or lies inside that window, so an event with fewer than
confirmationBlocks confirmations never enters ChainEvent. -/
theorem claim9_confirmation_gate :
    (∀ (db : DBState) (latestBlock confirmationBlocks : Int)
        (chainLogs : String → Int → Int → List ChainEvent) (b : Int),
        coveredByRanges
            (pollCycle db latestBlock confirmationBlocks chainLogs).queriedRanges b ↔
          (db.lastProcessedBlock + 1 ≤ b ∧ b ≤ latestBlock - confirmationBlocks)) ∧
    (∀ (db : DBState) (latestBlock confirmationBlocks : Int)
        (chainLogs : String → Int → Int → List ChainEvent),
        (∀ sig lo hi e, e ∈ chainLogs sig lo hi → lo ≤ e.blockNumber ∧ e.blockNumber ≤ hi) →
        ∀ e ∈ (pollCycle db latestBlock confirmationBlocks chainLogs).db.chainEvents,
          e ∈ db.chainEvents ∨
            (db.lastProcessedBlock + 1 ≤ e.blockNumber ∧
              e.blockNumber ≤ latestBlock - confirmationBlocks)) := by
  constructor
  · intro db latestBlock confirmationBlocks chainLogs b
    simp only [pollCycle]
    split
    · rename_i hskip
      constructor
      · rintro ⟨r, hr, _⟩
        exact absurd hr (List.not_mem_nil r)
      · rintro ⟨h1, h2⟩
        omega
    · exact coveredByRanges_buildChunks _ _ b
  · intro db latestBlock confirmationBlocks chainLogs hrange e he
    revert he
    simp only [pollCycle]
    split
    · intro he
      exact Or.inl he
    · rename_i hskip
      split
      · intro he
        rcases mem_chainEvents_foldl _ db e he with h2 | h2
        · exact Or.inl h2
        · right
          obtain ⟨c, hc, h3⟩ := List.mem_flatMap.mp h2
          obtain ⟨n, _, h4⟩ := List.mem_flatMap.mp h3
          obtain ⟨hlo, hhi⟩ := hrange n c.1 c.2 e h4
          have hcov : coveredByRanges
              (buildChunks (db.lastProcessedBlock + 1) (latestBlock - confirmationBlocks))
              e.blockNumber := ⟨c, hc, hlo, hhi⟩
          exact (coveredByRanges_buildChunks _ _ _).mp hcov
      · intro he
        rcases mem_chainEvents_foldl _ db e he with h2 | h2
        · exact Or.inl h2
        · right
          obtain ⟨c, hc, h3⟩ := List.mem_flatMap.mp h2
          obtain ⟨n, _, h4⟩ := List.mem_flatMap.mp h3
          obtain ⟨hlo, hhi⟩ := hrange n c.1 c.2 e h4
          have hcov : coveredByRanges
              (buildChunks (db.lastProcessedBlock + 1) (latestBlock - confirmationBlocks))
              e.blockNumber := ⟨c, hc, hlo, hhi⟩
          exact (coveredByRanges_buildChunks _ _ _).mp hcov

/-- Witness for C9 with confirmation depth 3, head 100 and checkpoint 90:
block 97 is queried, block 98 is not. -/
theorem claim9_witness :
    (coveredByRanges
        (pollCycle { chainEvents := [], workflowStates := [], lastProcessedBlock := 90 }
          100 3 (fun _ _ _ => [])).queriedRanges 97 ↔ (91 ≤ (97 : Int) ∧ (97 : Int) ≤ 97)) ∧
    (¬ coveredByRanges
        (pollCycle { chainEvents := [], workflowStates := [], lastProcessedBlock := 90 }
          100 3 (fun _ _ _ => [])).queriedRanges 98) ∧
    (∀ e ∈ (pollCycle { chainEvents := [], workflowStates := [], lastProcessedBlock := 90 }
          100 3 (fun _ _ _ => [])).db.chainEvents,
        e ∈ ({ chainEvents := [], workflowStates := [], lastProcessedBlock := 90 }
            : DBState).chainEvents ∨
          (91 ≤ e.blockNumber ∧ e.blockNumber ≤ 97)) := by
  refine ⟨claim9_confirmation_gate.1 _ 100 3 _ 97, ?_, ?_⟩
  · intro hcov
    have h2 := (claim9_confirmation_gate.1
      { chainEvents := [], workflowStates := [], lastProcessedBlock := 90 }
      100 3 (fun _ _ _ => []) 98).mp hcov
    omega
  · exact claim9_confirmation_gate.2
      { chainEvents := [], workflowStates := [], lastProcessedBlock := 90 }
      100 3 (fun _ _ _ => []) (fun sig lo hi e he => absurd he (List.not_mem_nil e))

end X402
